import Mathlib

/-!
Verification development for the telegraf `exec2` plugin
(`plugins/inputs/exec2/exec.go`).

Byte buffers (`bytes.Buffer` contents) are modelled as `List Nat`, one entry
per byte.  Go strings are modelled as Lean `String`.  Go maps
(`map[string]string`) are modelled as association lists where a fresh
insertion is consed on the front, so `List.lookup` returns the most recent
binding for a key, matching Go map lookup semantics.
-/

set_option autoImplicit false

namespace Exec2Model

/-- Models `MaxStderrBytes` (exec.go line 49). -/
def MaxStderrBytes : Nat := 512

/-- Models the bytes of the truncation marker string `"..."`
written by `buf.WriteString("...")` (exec.go line 129). -/
def marker : List Nat := [0x2E, 0x2E, 0x2E]

/-- Models Go's `bytes.IndexByte`: the index of the first occurrence of `c`
in `s`, or `-1` when `c` does not occur. -/
def indexByte (s : List Nat) (c : Nat) : Int :=
  match s.findIdx? (fun b => b = c) with
  | some i => (i : Int)
  | none => -1

/-- Models `truncate` (exec.go lines 114-132).  `r1` is the buffer and the
`didTruncate` flag after the byte-cap step; `r2` is the buffer and the flag
after the first-newline step.  Note the Go code evaluates
`i < buf.Len()-1` before `buf.Truncate(i)`, so the comparison uses the
capped buffer's length, and the newline cut itself is taken only when
`i > 0`. -/
def truncate (buf : List Nat) : List Nat :=
  let r1 : List Nat × Bool :=
    if MaxStderrBytes < buf.length then (buf.take MaxStderrBytes, true)
    else (buf, false)
  let i : Int := indexByte r1.1 0x0A
  let r2 : List Nat × Bool :=
    if 0 < i then
      (r1.1.take i.toNat, if i < (r1.1.length : Int) - 1 then true else r1.2)
    else r1
  if r2.2 then r2.1 ++ marker else r2.1

/-- Stated from the specification's words, for comparison with `truncate`:
"cap stderr at a fixed byte limit (512); if content exceeds the cap, cut at
the cap boundary.  Independently, if stderr contains a newline before the
last byte, cut at the first newline (first line only).  If either cut
occurred, append a truncation marker".  Here the newline test is read on
the capped buffer. -/
def truncateClaimed (buf : List Nat) : List Nat :=
  let cappedB : Bool := decide (MaxStderrBytes < buf.length)
  let capped : List Nat :=
    if MaxStderrBytes < buf.length then buf.take MaxStderrBytes else buf
  match capped.findIdx? (fun b => b = 0x0A) with
  | some i =>
    if i + 1 < capped.length then capped.take i ++ marker
    else if cappedB then capped ++ marker else capped
  | none => if cappedB then capped ++ marker else capped

/-- The amended truncation policy: cap at 512 bytes first; then cut at the
capped buffer's first newline only when that newline sits at a strictly
positive index; append the marker exactly when the byte cap was applied or
a positive-index first newline was not the capped buffer's last byte (a cut
that only removes a trailing newline appends no marker). -/
def truncateAmended (buf : List Nat) : List Nat :=
  let cappedB : Bool := decide (MaxStderrBytes < buf.length)
  let capped : List Nat :=
    if MaxStderrBytes < buf.length then buf.take MaxStderrBytes else buf
  match capped.findIdx? (fun b => b = 0x0A) with
  | some i =>
    if 0 < i then
      if cappedB || decide (i + 1 < capped.length) then capped.take i ++ marker
      else capped.take i
    else if cappedB then capped ++ marker else capped
  | none => if cappedB then capped ++ marker else capped

/-- Byte-by-byte restatement of the copy loop inside `removeCarriageReturns`
(exec.go lines 139-153): the loop repeatedly reads up to and including the
next `0x0D` delimiter and writes the chunk without the delimiter, so its
net effect is to drop every `0x0D` byte and keep everything else. -/
def stripCR : List Nat → List Nat
  | [] => []
  | byt :: rest => if byt = 0x0D then stripCR rest else byt :: stripCR rest

/-- Models `removeCarriageReturns` (exec.go lines 136-158): strips all
carriage-return bytes when the OS is Windows, otherwise returns the buffer
unchanged.  `runtime.GOOS` is passed explicitly as `goos`. -/
def removeCarriageReturns (goos : String) (b : List Nat) : List Nat :=
  if goos = "windows" then stripCR b else b

/-- Models the output-sanitizing phase of `CommandRunner.Run`
(exec.go lines 105-109): carriage returns are removed from stdout, and from
stderr when it is non-empty, in which case stderr is then truncated. -/
def runSanitize (goos : String) (out stderr : List Nat) : List Nat × List Nat :=
  let out2 := removeCarriageReturns goos out
  let stderr2 :=
    if 0 < stderr.length then truncate (removeCarriageReturns goos stderr)
    else stderr
  (out2, stderr2)

/-- A value stored in a metric field.  Go field values are dynamically
typed; this plugin inspects only `float64` values, and the only use it
makes of such a value is its rendering by
`strconv.FormatFloat(value, 'f', -1, 64)` (exec.go line 350).  A `float64`
field is therefore represented by that decimal rendering (e.g. the float
`9090.0` renders as `"9090"`); every other runtime type carries no data
this plugin reads. -/
inductive FieldValue where
  | float64 (formatFloat : String)
  | other
deriving DecidableEq

/-- Models a telegraf metric as used by this plugin: its tag list and its
field list.  `AddTag` conses the new binding on the front, so
`List.lookup` returns the latest value for a key, matching telegraf's
upsert semantics for `Metric.AddTag`. -/
structure Metric where
  tags : List (String × String)
  fields : List (String × FieldValue)
deriving DecidableEq

/-- Models telegraf `Metric.AddTag`. -/
def AddTag (metric : Metric) (key value : String) : Metric :=
  { metric with tags := (key, value) :: metric.tags }

/-- Models the accumulator capability (the sink): delivered metrics and
reported errors, each appended in order. -/
structure Accum where
  metrics : List Metric
  errors : List String
deriving DecidableEq

/-- Models `acc.AddError`. -/
def addAccError (acc : Accum) (err : String) : Accum :=
  { acc with errors := acc.errors ++ [err] }

/-- Models the pure state of the `Exec2` struct (exec.go lines 51-70).
The capability fields (`parser`, `runner`, `Log`), the timeout and the
mutex are not part of the pure state: parser and runner are passed to the
operations as explicit oracles, and locking has no observable effect in
this sequential model. -/
structure Exec2 where
  Commands : List String
  Command : String
  Pattern : String
  Ports : String
  cmds : List (String × String)
  addedPattern : Bool
  ExCommands : List String
  ex_cmds : List (String × String)
deriving DecidableEq

/-- Models `NewExec2` (exec.go lines 72-77) restricted to the pure state:
every field starts at its zero value. -/
def NewExec2 : Exec2 :=
  { Commands := [], Command := "", Pattern := "", Ports := "", cmds := [],
    addedPattern := false, ExCommands := [], ex_cmds := [] }

/-- Splits a character list at every occurrence of `sep`, accumulating the
current chunk in reverse; Go `strings.Split` semantics, so `n` separators
yield `n+1` chunks and the empty string yields one empty chunk. -/
def splitCharsOn (sep : Char) : List Char → List Char → List (List Char)
  | [], cur => [cur.reverse]
  | c :: cs, cur =>
    if c = sep then cur.reverse :: splitCharsOn sep cs []
    else splitCharsOn sep cs (c :: cur)

/-- Models Go `strings.Split(s, sep)` for a one-character separator. -/
def stringsSplit (s : String) (sep : Char) : List String :=
  (splitCharsOn sep s.data []).map (fun cs => String.mk cs)

/-- Models Go `strings.SplitN(s, " ", 2)`: at most two chunks, split
around the first space. -/
def splitSpaceN2 (s : String) : List String :=
  let pre := s.data.takeWhile (fun c => c ≠ ' ')
  match s.data.dropWhile (fun c => c ≠ ' ') with
  | [] => [String.mk pre]
  | _ :: rest => [String.mk pre, String.mk rest]

/-- The first whitespace-delimited token of a command spec:
`cmdAndArgs[0]` after `strings.SplitN(pattern, " ", 2)`. -/
def firstToken (s : String) : String :=
  String.mk (s.data.takeWhile (fun c => c ≠ ' '))

/-- The trailing-argument remainder of a command spec: `cmdAndArgs[1]`
after `strings.SplitN(pattern, " ", 2)`, present only when the spec
contains a space. -/
def restAfterToken (s : String) : Option String :=
  match s.data.dropWhile (fun c => c ≠ ' ') with
  | [] => none
  | _ :: rest => some (String.mk rest)

/-- Substitutes `arg` for the first `%s` verb in the character list,
leaving everything else verbatim. -/
def substVerbS (arg : List Char) : List Char → List Char
  | [] => []
  | '%' :: 's' :: rest => arg ++ rest
  | c :: rest => c :: substVerbS arg rest

/-- Models `fmt.Sprintf(pattern, arg)` for the format strings this plugin
uses, whose only verb is a single `%s`. -/
def sprintf1 (pattern arg : String) : String :=
  String.mk (substVerbS arg.data pattern.data)

/-- Models a Go map assignment `m[k] = v` on the association-list model:
the new binding shadows any earlier binding for `k` under `List.lookup`. -/
def mapAssign (m : List (String × String)) (k v : String) :
    List (String × String) :=
  (k, v) :: m

/-- Models `addPatternCommands` (exec.go lines 314-327): when a pattern
and a static port list are configured and not yet expanded, split the port
list on commas, bind each generated command to its port in a fresh `cmds`
map, mark the expansion done, and append the generated commands to
`Commands`. -/
def addPatternCommands (e : Exec2) : Exec2 :=
  if e.Pattern ≠ "" ∧ e.Ports ≠ "" ∧ e.addedPattern = false then
    let ports := stringsSplit e.Ports ','
    let r := ports.foldl
      (fun (acc : List (String × String) × List String × Bool) port =>
        let cmd := sprintf1 e.Pattern port
        (mapAssign acc.1 cmd port, acc.2.1 ++ [cmd], true))
      ([], [], e.addedPattern)
    { e with cmds := r.1, Commands := e.Commands ++ r.2.1,
             addedPattern := r.2.2 }
  else e

/-- Models the static-binding tag step inside `addMetric`
(exec.go lines 191-193). -/
def addStaticPortTag (e : Exec2) (command : String) (metric : Metric) :
    Metric :=
  match e.cmds.lookup command with
  | some port => AddTag metric "port" port
  | none => metric

/-- Models `addExMetric` (exec.go lines 200-208): tag from the dynamic
binding when the command is bound there. -/
def addExMetric (e : Exec2) (command : String) (metric : Metric) : Metric :=
  match e.ex_cmds.lookup command with
  | some port => AddTag metric "port" port
  | none => metric

/-- Models `addMetric` (exec.go lines 189-198): tag from the static
binding, then from the dynamic binding, then hand the metric to the
accumulator. -/
def addMetric (e : Exec2) (command : String) (metric : Metric)
    (acc : Accum) : Accum :=
  { acc with metrics :=
      acc.metrics ++ [addExMetric e command (addStaticPortTag e command metric)] }

/-- The behaviour of a `filepath.Glob` call: an error or the (sorted) list
of match strings, supplied as an oracle for the filesystem. -/
def GlobOracle : Type := String → Except String (List String)

/-- Models one iteration of the command-resolution loop shared verbatim by
`Gather` (exec.go lines 232-260) and `readExCommandsLock` (exec.go lines
281-309): split the spec around the first space, glob-expand the first
token, and extend the accumulated `(commands, errors)` pair.  Glob errors
go to the error component (the Go code reports them via `acc.AddError` and
continues). -/
def resolveStep (glob : GlobOracle) (acc : List String × List String)
    (pattern : String) : List String × List String :=
  match splitSpaceN2 pattern with
  | [] => acc
  | cmd0 :: rest =>
    match glob cmd0 with
    | Except.error err => (acc.1, acc.2 ++ [err])
    | Except.ok globMatches =>
      if globMatches.length = 0 then (acc.1 ++ [pattern], acc.2)
      else
        (acc.1 ++ globMatches.map (fun mat =>
          match rest with
          | [] => mat
          | r :: _ => mat ++ " " ++ r), acc.2)

/-- Models `readExCommandsLock` (exec.go lines 276-311): resolve every
dynamic command spec with the shared resolution loop. -/
def readExCommandsLock (glob : GlobOracle) (e : Exec2) :
    List String × List String :=
  e.ExCommands.foldl (resolveStep glob) ([], [])

/-- The outcome of one `runner.Run` call: captured stdout, captured (and
already sanitized) stderr, and the execution error when the process failed
to launch, exited non-zero, or timed out. -/
structure RunOutcome where
  out : List Nat
  errbuf : List Nat
  runErr : Option String

/-- Models `ProcessCommand` (exec.go lines 160-187).  The runner, the
configured output parsing capability and nagios `TryAddState` are oracles;
`isNagios` tells whether the configured capability is the nagios one.  A
run error under a non-nagios configuration, or a parse error, is reported
to the accumulator and contributes no metrics; otherwise every parsed
metric is tagged and delivered.  (`TryAddState`'s own error is only logged
in the Go code, never accumulated, so it is dropped here.) -/
def ProcessCommand (runner : String → RunOutcome)
    (parse : List Nat → Except String (List Metric))
    (tryAddState : Option String → List Metric → List Metric × Option String)
    (isNagios : Bool) (e : Exec2) (command : String) (acc : Accum) : Accum :=
  let r := runner command
  if isNagios = false ∧ r.runErr.isSome then
    addAccError acc ("exec2: " ++ r.runErr.getD "" ++ " for command " ++ command)
  else
    match parse r.out with
    | Except.error err => addAccError acc err
    | Except.ok metrics =>
      let metrics := if isNagios then (tryAddState r.runErr metrics).1 else metrics
      metrics.foldl (fun a m => addMetric e command m a) acc

/-- Models `Gather` (exec.go lines 222-273).  The goroutine fan-out joined
by the wait group is modelled as a sequential fold over the same commands:
the claims below concern `Gather`'s return value and per-command effects,
not the interleaving of accumulator appends.  Glob errors from both
resolution loops are reported to the accumulator, and `Gather`
unconditionally ends in `return nil`, modelled by the final `none`
component. -/
def Gather (glob : GlobOracle) (runner : String → RunOutcome)
    (parse : List Nat → Except String (List Metric))
    (tryAddState : Option String → List Metric → List Metric × Option String)
    (isNagios : Bool) (e : Exec2) (acc : Accum) :
    Exec2 × Accum × Option String :=
  let e1 := if e.Command ≠ "" then
      { e with Commands := e.Commands ++ [e.Command], Command := "" }
    else e
  let r := e1.Commands.foldl (resolveStep glob) ([], [])
  let rEx := readExCommandsLock glob e1
  let acc1 := { acc with errors := acc.errors ++ r.2 ++ rEx.2 }
  let acc2 := (r.1 ++ rEx.1).foldl
    (fun a command => ProcessCommand runner parse tryAddState isNagios e1 command a)
    acc1
  (e1, acc2, none)

/-- Models the parameter-extraction loop of `Write` (exec.go lines
345-354): every `float64` field value across all metrics, in metric-then-
field enumeration order, rendered as a decimal string. -/
def extractExPorts (metrics : List Metric) : List String :=
  metrics.foldl (fun exPorts m =>
    m.fields.foldl (fun acc f =>
      match f.2 with
      | FieldValue.float64 s => acc ++ [s]
      | FieldValue.other => acc) exPorts) []

/-- Models `Write` (exec.go lines 341-378): when a pattern is configured
and at least one parameter was extracted, clear `ExCommands`, rebuild the
dynamic binding `ex_cmds` and the dynamic command list from scratch out of
the extracted parameters, and install them; otherwise leave the state
untouched. -/
def Write (e : Exec2) (metrics : List Metric) : Exec2 :=
  let exPorts := extractExPorts metrics
  if e.Pattern ≠ "" ∧ 0 < exPorts.length then
    let e1 := { e with ExCommands := [] }
    let r := exPorts.foldl
      (fun (acc : List String × List (String × String)) port =>
        let cmd := sprintf1 e.Pattern port
        (acc.1 ++ [cmd], mapAssign acc.2 cmd port))
      ([], [])
    { e1 with ex_cmds := r.2, ExCommands := e1.ExCommands ++ r.1 }
  else e

/-- A metric with no tags and no fields, used by witnesses. -/
def emptyMetric : Metric := { tags := [], fields := [] }

/-- An accumulator with nothing delivered yet, used by witnesses. -/
def emptyAccum : Accum := { metrics := [], errors := [] }

/-- Scenario state from the specification: pattern `"check_port %s"` with
static ports `"80,443"`, after the pattern expansion of `Init`. -/
def staticScenario : Exec2 :=
  addPatternCommands { NewExec2 with Pattern := "check_port %s", Ports := "80,443" }

/-- A state whose command `"c"` is bound in both the static and the
dynamic binding, with different parameters. -/
def bothBound : Exec2 :=
  { NewExec2 with cmds := [("c", "80")], ex_cmds := [("c", "8080")] }

/-- A state with a configured pattern and a non-empty prior dynamic set. -/
def priorDynamic : Exec2 :=
  { NewExec2 with Pattern := "probe %s", ExCommands := ["old"], ex_cmds := [("old", "0")] }

/-- A one-metric batch carrying no `float64` field. -/
def noFloatBatch : List Metric :=
  [{ tags := [], fields := [("x", FieldValue.other)] }]

/-- The specification's scenario batch: one metric whose `float64` fields
render as `"9090"` and `"9091"`. -/
def floatBatch : List Metric :=
  [{ tags := [], fields := [("f1", FieldValue.float64 "9090"), ("f2", FieldValue.float64 "9091")] }]

/-! ## Helper lemmas -/

/-- The carriage-return copy loop keeps exactly the bytes other than
`0x0D`. -/
theorem stripCR_eq_filter (l : List Nat) :
    stripCR l = l.filter (fun byt => byt ≠ 0x0D) := by
  induction l with
  | nil => rfl
  | cons b t ih =>
    by_cases hb : b = 0x0D <;> simp [stripCR, hb, ih]

/-- A list whose first entry satisfies the test keeps index `0` under
`take` of a positive count. -/
theorem findIdx?_take_of_zero (l : List Nat) (p : Nat → Bool) (n : Nat)
    (hn : 0 < n) (h : l.findIdx? p = some 0) :
    (l.take n).findIdx? p = some 0 := by
  cases l with
  | nil => simp at h
  | cons a t =>
    rw [List.findIdx?_cons] at h
    by_cases hp : p a
    · cases n with
      | zero => omega
      | succ m => simp [List.take_succ_cons, List.findIdx?_cons, hp]
    · simp only [hp, if_neg] at h
      simp [hp] at h

/-- The command-building fold of `Write` produces, in its first component,
exactly one generated command per extracted parameter, in order. -/
theorem writeFold_fst (pat : String) (ports : List String)
    (acc : List String × List (String × String)) :
    (ports.foldl
      (fun (acc : List String × List (String × String)) port =>
        let cmd := sprintf1 pat port
        (acc.1 ++ [cmd], mapAssign acc.2 cmd port)) acc).1
      = acc.1 ++ ports.map (fun port => sprintf1 pat port) := by
  induction ports generalizing acc with
  | nil => simp
  | cons p t ih => simp [ih]

/-! ## Claim theorems -/

/-- Claim C1, counterexample.  The claim's policy ("if the buffer contains
a newline before the last byte, it is cut at the first newline, and a cut
appends the marker") predicts `"..."` for the two-byte buffer
`"\na"`, but `truncate` leaves that buffer unchanged, because the Go code
takes the newline cut only at a strictly positive index. -/
theorem exec2_c1_counterexample :
    truncate [0x0A, 0x61] = [0x0A, 0x61] ∧
    truncateClaimed [0x0A, 0x61] = marker ∧
    truncateClaimed [0x0A, 0x61] ≠ truncate [0x0A, 0x61] := by
  refine ⟨by decide, by decide, by decide⟩

/-- Claim C1, amended.  `truncate` caps the buffer at 512 bytes; then cuts
at the capped buffer's first newline only when that newline sits at a
strictly positive index; and appends the marker exactly when the byte cap
was applied or such a positive-index first newline was not the capped
buffer's last byte (so a cut that only removes a trailing newline appends
no marker, and in particular a first line followed by more content yields
the first line plus the marker). -/
theorem exec2_c1_amended (buf : List Nat) : truncate buf = truncateAmended buf := by
  by_cases hcap : MaxStderrBytes < buf.length
  · simp only [truncate, truncateAmended, indexByte, if_pos hcap,
      decide_eq_true hcap]
    cases hfi : (buf.take MaxStderrBytes).findIdx? (fun b => decide (b = 0x0A)) with
    | none => simp [hfi]
    | some i =>
      simp only [hfi]
      by_cases hi : 0 < i
      · have hi' : (0 : Int) < (i : Int) := by exact_mod_cast hi
        simp [hi, hi']
      · have hi0 : i = 0 := by omega
        subst hi0
        simp
  · simp only [truncate, truncateAmended, indexByte, if_neg hcap,
      decide_eq_false hcap]
    cases hfi : buf.findIdx? (fun b => decide (b = 0x0A)) with
    | none => simp [hfi]
    | some i =>
      simp only [hfi]
      by_cases hi : 0 < i
      · have hi' : (0 : Int) < (i : Int) := by exact_mod_cast hi
        by_cases hlen : i + 1 < buf.length
        · have hl : (i : Int) < (buf.length : Int) - 1 := by
            have := hlen
            omega
          simp [hi, hi', hl, hlen]
        · have hl : ¬ (i : Int) < (buf.length : Int) - 1 := by
            have := hlen
            omega
          simp [hi, hi', hl, hlen]
      · have hi0 : i = 0 := by omega
        subst hi0
        simp

/-- Claim C9.  When the stderr buffer's first newline sits at index 0, the
newline cut is not taken: the buffer is returned subject only to the
512-byte cap (with the marker exactly when the cap applied). -/
theorem exec2_c9 (buf : List Nat)
    (h : buf.findIdx? (fun b => decide (b = 0x0A)) = some 0) :
    truncate buf =
      if MaxStderrBytes < buf.length then buf.take MaxStderrBytes ++ marker
      else buf := by
  by_cases hcap : MaxStderrBytes < buf.length
  · have hfi : (buf.take MaxStderrBytes).findIdx? (fun b => decide (b = 0x0A)) = some 0 :=
      findIdx?_take_of_zero buf _ MaxStderrBytes (by decide) h
    simp [truncate, indexByte, hcap, hfi]
  · simp [truncate, indexByte, hcap, h]

/-- Claim C9, witness: a buffer beginning with a newline and holding more
content afterwards is returned unchanged. -/
theorem exec2_c9_witness :
    truncate [0x0A, 0x61] =
      if MaxStderrBytes < ([0x0A, 0x61] : List Nat).length then
        ([0x0A, 0x61] : List Nat).take MaxStderrBytes ++ marker
      else [0x0A, 0x61] :=
  exec2_c9 [0x0A, 0x61] (by decide)

/-- Claim C7.  On the Windows platform every carriage-return byte is
removed from both captured stdout and captured stderr before the stderr
truncation step of `CommandRunner.Run`; on every other platform the
carriage-return-stripping function returns its input unchanged. -/
theorem exec2_c7 (goos : String) (out stderr : List Nat) :
    (goos = "windows" →
      runSanitize goos out stderr =
        (out.filter (fun byt => byt ≠ 0x0D),
         if 0 < stderr.length then
           truncate (stderr.filter (fun byt => byt ≠ 0x0D))
         else stderr)) ∧
    (goos ≠ "windows" →
      removeCarriageReturns goos out = out ∧
      removeCarriageReturns goos stderr = stderr) := by
  constructor
  · intro hg
    simp [runSanitize, removeCarriageReturns, hg, stripCR_eq_filter]
  · intro hg
    simp [removeCarriageReturns, hg]

/-- Claim C7, witness: on Windows, carriage returns disappear from stdout
and from stderr ahead of truncation; on Linux the stripping step is the
identity. -/
theorem exec2_c7_witness :
    runSanitize "windows" [0x61, 0x0D, 0x0A] [0x62, 0x0D, 0x63] =
      ([0x61, 0x0A], truncate [0x62, 0x63]) ∧
    removeCarriageReturns "linux" [0x0D, 0x62] = [0x0D, 0x62] := by
  constructor
  · have h := (exec2_c7 "windows" [0x61, 0x0D, 0x0A] [0x62, 0x0D, 0x63]).1 rfl
    rw [h]
    decide
  · exact ((exec2_c7 "linux" [0x0D, 0x62] [0x0D, 0x62]).2 (by decide)).2

/-- Claim C2.  When no `float64` field value is extracted from the batch,
or no template pattern is configured, `Write` leaves the dynamic command
list and the dynamic binding exactly as they were: a no-op, not a reset. -/
theorem exec2_c2 (e : Exec2) (metrics : List Metric)
    (h : extractExPorts metrics = [] ∨ e.Pattern = "") :
    (Write e metrics).ExCommands = e.ExCommands ∧
    (Write e metrics).ex_cmds = e.ex_cmds := by
  have hW : Write e metrics = e := by
    unfold Write
    rcases h with h | h
    · simp [h]
    · simp [h]
  rw [hW]
  exact ⟨rfl, rfl⟩

/-- Claim C2, witness: a batch with no numeric field leaves a non-empty
dynamic set untouched even though a pattern is configured. -/
theorem exec2_c2_witness :
    (Write priorDynamic noFloatBatch).ExCommands = ["old"] ∧
    (Write priorDynamic noFloatBatch).ex_cmds = [("old", "0")] := by
  have h := exec2_c2 priorDynamic noFloatBatch (Or.inl (by decide))
  exact ⟨h.1, h.2⟩

/-- Claim C3.  With a configured pattern and at least one extracted
parameter, `Write` rebuilds the dynamic command list from scratch: the new
list is exactly one generated command per extracted parameter, in
metric-then-field enumeration order, independent of any prior dynamic
set. -/
theorem exec2_c3 (e : Exec2) (metrics : List Metric)
    (h1 : e.Pattern ≠ "") (h2 : extractExPorts metrics ≠ []) :
    (Write e metrics).ExCommands =
      (extractExPorts metrics).map (fun port => sprintf1 e.Pattern port) := by
  have hlen : 0 < (extractExPorts metrics).length := by
    cases hx : extractExPorts metrics with
    | nil => exact absurd hx h2
    | cons a t => simp
  unfold Write
  rw [if_pos (show e.Pattern ≠ "" ∧ 0 < (extractExPorts metrics).length from
    ⟨h1, hlen⟩)]
  simpa using writeFold_fst e.Pattern (extractExPorts metrics) ([], [])

/-- Claim C3, witness: the specification's scenario.  Fields `9090.0` and
`9091.0` with pattern `"probe %s"` replace the prior dynamic set `["old"]`
by exactly `["probe 9090", "probe 9091"]`. -/
theorem exec2_c3_witness :
    (Write priorDynamic floatBatch).ExCommands = ["probe 9090", "probe 9091"] := by
  have h := exec2_c3 priorDynamic floatBatch (by decide) (by decide)
  rw [h]
  decide

/-- Claim C4.  A command spec whose first whitespace-delimited token
produces zero glob matches (and no glob error) resolves to exactly the
original spec string, token plus trailing arguments, and reports no
error. -/
theorem exec2_c4 (glob : GlobOracle) (acc : List String × List String)
    (pattern : String) (h : glob (firstToken pattern) = Except.ok []) :
    resolveStep glob acc pattern = (acc.1 ++ [pattern], acc.2) := by
  unfold firstToken at h
  simp only [ne_eq, decide_not] at h
  unfold resolveStep splitSpaceN2
  cases hd : pattern.data.dropWhile (fun c => c ≠ ' ') with
  | nil => simp [h]
  | cons c rest => simp [h]

/-- Claim C4, witness: the specification's scenario, a spec
`"nonexistent_glob_*.sh"` with zero filesystem matches resolves to the
literal spec and no error. -/
theorem exec2_c4_witness :
    resolveStep (fun _ => Except.ok []) ([], []) "nonexistent_glob_*.sh"
      = (([] : List String) ++ ["nonexistent_glob_*.sh"], ([] : List String)) :=
  exec2_c4 (fun _ => Except.ok []) ([], []) "nonexistent_glob_*.sh" rfl

/-- Claim C5.  A command spec whose first token yields a non-empty list of
glob matches resolves to exactly one command per match, in match order:
the match alone when the spec had no trailing arguments, otherwise the
match, a single space, and the remainder verbatim. -/
theorem exec2_c5 (glob : GlobOracle) (acc : List String × List String)
    (pattern : String) (ms : List String)
    (h : glob (firstToken pattern) = Except.ok ms) (hne : ms ≠ []) :
    resolveStep glob acc pattern =
      (acc.1 ++ ms.map (fun mat =>
        match restAfterToken pattern with
        | none => mat
        | some r => mat ++ " " ++ r), acc.2) := by
  have hlen : ¬ ms.length = 0 := by
    cases ms with
    | nil => exact absurd rfl hne
    | cons a t => simp
  unfold firstToken at h
  simp only [ne_eq, decide_not] at h
  unfold resolveStep splitSpaceN2 restAfterToken
  cases hd : pattern.data.dropWhile (fun c => c ≠ ' ') with
  | nil => simp [h, hlen]
  | cons c rest => simp [h, hlen]

/-- Claim C5, witness: two matches for a spec with trailing arguments
yield two resolved commands, each match followed by the remainder. -/
theorem exec2_c5_witness :
    resolveStep (fun _ => Except.ok ["/bin/collect_a.sh", "/bin/collect_b.sh"])
        (["x"], []) "collect_*.sh --foo bar"
      = (["x"] ++ ["/bin/collect_a.sh --foo bar", "/bin/collect_b.sh --foo bar"],
         ([] : List String)) := by
  have h := exec2_c5 (fun _ => Except.ok ["/bin/collect_a.sh", "/bin/collect_b.sh"])
    (["x"], []) "collect_*.sh --foo bar" ["/bin/collect_a.sh", "/bin/collect_b.sh"]
    rfl (by decide)
  rw [h]
  decide

/-- Claim C6.  Each metric a command produced is handed to the sink after
tagging: bound in the static or the dynamic binding means a `"port"` tag
carrying the bound parameter is attached; bound in neither means the
metric is delivered unchanged. -/
theorem exec2_c6 (e : Exec2) (command : String) (m : Metric) (acc : Accum) :
    (addMetric e command m acc).metrics =
      acc.metrics ++ [addExMetric e command (addStaticPortTag e command m)] ∧
    ((e.cmds.lookup command = none ∧ e.ex_cmds.lookup command = none) →
      addExMetric e command (addStaticPortTag e command m) = m) ∧
    (∀ p, e.cmds.lookup command = some p → e.ex_cmds.lookup command = none →
      (addExMetric e command (addStaticPortTag e command m)).tags.lookup "port"
        = some p) ∧
    (∀ p, e.ex_cmds.lookup command = some p →
      (addExMetric e command (addStaticPortTag e command m)).tags.lookup "port"
        = some p) := by
  refine ⟨rfl, ?_, ?_, ?_⟩
  · rintro ⟨h1, h2⟩
    simp [addExMetric, addStaticPortTag, h1, h2]
  · intro p h1 h2
    simp [addExMetric, addStaticPortTag, h1, h2, AddTag, List.lookup]
  · intro p h1
    simp [addExMetric, h1, AddTag, List.lookup]

/-- Claim C6, witness: the specification's scenario.  Pattern
`"check_port %s"` with static ports `"80,443"` binds each generated
command to its port, and the delivered metrics carry `port=80` and
`port=443` respectively. -/
theorem exec2_c6_witness :
    (addExMetric staticScenario "check_port 80"
        (addStaticPortTag staticScenario "check_port 80" emptyMetric)).tags.lookup "port"
      = some "80" ∧
    (addExMetric staticScenario "check_port 443"
        (addStaticPortTag staticScenario "check_port 443" emptyMetric)).tags.lookup "port"
      = some "443" := by
  constructor
  · exact (exec2_c6 staticScenario "check_port 80" emptyMetric emptyAccum).2.2.1 "80"
      (by decide) (by decide)
  · exact (exec2_c6 staticScenario "check_port 443" emptyMetric emptyAccum).2.2.1 "443"
      (by decide) (by decide)

/-- Claim C8.  `Gather` always returns a nil error, whatever the glob
results, runner outcomes, parser behaviour and state: failures are
reported only through the accumulator's error channel. -/
theorem exec2_c8 (glob : GlobOracle) (runner : String → RunOutcome)
    (parse : List Nat → Except String (List Metric))
    (tryAddState : Option String → List Metric → List Metric × Option String)
    (isNagios : Bool) (e : Exec2) (acc : Accum) :
    (Gather glob runner parse tryAddState isNagios e acc).2.2 = none := rfl

/-- Claim C10.  A command bound in both the static and the dynamic binding
delivers its metric with the `"port"` tag carrying the dynamic parameter:
the static tag is attached first and the dynamic tag afterwards,
shadowing it. -/
theorem exec2_c10 (e : Exec2) (command : String) (m : Metric) (acc : Accum)
    (ps pd : String) (hs : e.cmds.lookup command = some ps)
    (hd : e.ex_cmds.lookup command = some pd) :
    (addStaticPortTag e command m).tags.lookup "port" = some ps ∧
    (addExMetric e command (addStaticPortTag e command m)).tags.lookup "port"
      = some pd ∧
    (addMetric e command m acc).metrics =
      acc.metrics ++ [addExMetric e command (addStaticPortTag e command m)] := by
  refine ⟨?_, ?_, rfl⟩
  · simp [addStaticPortTag, hs, AddTag, List.lookup]
  · simp [addExMetric, hd, AddTag, List.lookup]

/-- Claim C10, witness: command `"c"` bound statically to `"80"` and
dynamically to `"8080"` ends with `port=8080` after the static tag was
first set to `"80"`. -/
theorem exec2_c10_witness :
    (addStaticPortTag bothBound "c" emptyMetric).tags.lookup "port" = some "80" ∧
    (addExMetric bothBound "c"
        (addStaticPortTag bothBound "c" emptyMetric)).tags.lookup "port"
      = some "8080" := by
  have h := exec2_c10 bothBound "c" emptyMetric emptyAccum "80" "8080"
    (by decide) (by decide)
  exact ⟨h.1, h.2.1⟩

end Exec2Model
